/-
Verification of the manget download orchestration core.

Shallow embedding of:
  - manget/src/download.rs  (batch downloader, rate limiting, extension inference)
  - src/manga.rs            (chapter orchestrator with the single retry pass)
  - manget/src/manga.rs     (site dispatch, cbz packaging)
plus one component modelled from the specification where the current
source file is absent from the snapshot (see the doc comment on
Spec.PageDescriptor).

Network and filesystem effects are abstracted as explicit oracle
arguments; scheduling behaviour is modelled as an explicit event trace.
-/
import Mathlib

set_option maxHeartbeats 1000000

namespace Manget

/-- DownloadItem from manget/src/download.rs lines 29-33: a page URL and an
optional explicit file name. -/
structure DownloadItem where
  url : String
  name : Option String
deriving Repr, DecidableEq

/-- DownloadSpeedLimit from manget/src/download.rs lines 35-39: at most
num_items downloads per window; duration is the window length in
milliseconds. -/
structure DownloadSpeedLimit where
  num_items : Nat
  duration : Nat
deriving Repr, DecidableEq

/-- DownloadOptions from manget/src/download.rs lines 41-46. -/
structure DownloadOptions where
  items : List DownloadItem
  limit_speed : Option DownloadSpeedLimit
  path : String
deriving Repr, DecidableEq

/-- DownloadError from manget/src/download.rs lines 14-27.  The reqwest and
io error payloads are abstracted as message strings; RequestError keeps the
failing item, as in the source. -/
inductive DownloadError where
  | InvalidUrl (url : String)
  | IoError (msg : String)
  | ConvertError (msg : String)
  | RequestError (item : DownloadItem) (msg : String)
deriving Repr, DecidableEq

/-- Result alias for one fetch: the written file path on success. -/
abbrev DlResult := Except DownloadError String

/-- DownloadOptions::clear_download_items (manget/src/download.rs lines
102-104): resets only the item list; the speed limit and path are untouched. -/
def clear_download_items (o : DownloadOptions) : DownloadOptions :=
  { o with items := [] }

/-- DownloadOptions::add_download_items (manget/src/download.rs lines 94-96). -/
def add_download_items (o : DownloadOptions) (its : List DownloadItem) : DownloadOptions :=
  { o with items := o.items ++ its }

/-- DownloadOptions::set_limit_speed (manget/src/download.rs lines 106-108). -/
def set_limit_speed (o : DownloadOptions) (lim : DownloadSpeedLimit) : DownloadOptions :=
  { o with limit_speed := some lim }

/-- download_chunk (manget/src/download.rs lines 138-155): starts one fetch
future per item and joins them; join_all preserves the input order, so the
result list is the pointwise image of the items.  The per-item log line is a
side effect with no influence on the results and is not modelled. -/
def download_chunk (items : List DownloadItem) (fetch : DownloadItem → DlResult) :
    List DlResult :=
  items.map fetch

/-- Scheduling event of one download run: a chunk handed to join_all
(all its fetches in flight concurrently), or an inter-chunk sleep of the
given duration. -/
inductive DlEvent where
  | runChunk (chunk : List DownloadItem)
  | sleep (duration : Nat)
deriving Repr, DecidableEq

/-- Structural-recursion chunker: chunksOfAux n fuel l cuts l into pieces of
size n+1, consuming fuel so that the recursion is structural (fuel is always
instantiated with the length of the list, which suffices). -/
def chunksOfAux {α : Type} (n : Nat) : Nat → List α → List (List α)
  | _, [] => []
  | 0, _ :: _ => []
  | fuel + 1, x :: xs => (x :: xs.take n) :: chunksOfAux n fuel (xs.drop n)

/-- Rust slice::chunks with chunk size n+1: consecutive chunks, all of size
n+1 except possibly a shorter final one.  The zero-chunk-size panic of
slice::chunks is handled by the caller (download). -/
def chunksOf {α : Type} (n : Nat) (l : List α) : List (List α) :=
  chunksOfAux n l.length l

/-- The while-let loop of download (manget/src/download.rs lines 126-132):
run each chunk, append its results, and sleep only when another chunk is
still pending (chunks.peek().is_some()).  Returns the collected results
together with the scheduling trace. -/
def downloadGo (fetch : DownloadItem → DlResult) (d : Nat) :
    List (List DownloadItem) → List DlResult × List DlEvent
  | [] => ([], [])
  | c :: rest =>
    match rest with
    | [] => (download_chunk c fetch, [DlEvent.runChunk c])
    | _ :: _ =>
      let sub := downloadGo fetch d rest
      (download_chunk c fetch ++ sub.1, DlEvent.runChunk c :: DlEvent.sleep d :: sub.2)

/-- download (manget/src/download.rs lines 117-136).  Without a speed limit
everything is one chunk.  With a limit, the items are cut with
slice::chunks(num_items); slice::chunks panics when num_items is 0, which is
modelled as none.  src/lib.rs lines 125-142 (Downloader::download) has the
same structure.  The second component of the payload is the scheduling
trace. -/
def download (opts : DownloadOptions) (fetch : DownloadItem → DlResult) :
    Option (List DlResult × List DlEvent) :=
  match opts.limit_speed with
  | none => some (download_chunk opts.items fetch, [DlEvent.runChunk opts.items])
  | some lim =>
    match lim.num_items with
    | 0 => none
    | n + 1 => some (downloadGo fetch lim.duration (chunksOf n opts.items))

/-- Left-to-right non-overlapping replacement of the character sequence
jpeg by jpg, exactly what the Rust expression
subtype.to_string().replace("jpeg", "jpg") performs on the subtype text. -/
def jpegToJpg : List Char → List Char
  | 'j' :: 'p' :: 'e' :: 'g' :: rest => 'j' :: 'p' :: 'g' :: jpegToJpg rest
  | c :: rest => c :: jpegToJpg rest
  | [] => []

/-- String form of the jpeg-to-jpg replacement. -/
def replaceJpeg (s : String) : String :=
  ⟨jpegToJpg s.data⟩

/-- infer_extension_from_response (manget/src/download.rs lines 205-224).
The argument is the mime essence of the content-type header, already split
into top-level type and subtype; none models a missing, non-ASCII or
unparsable header (the and_then chain in the source).  The source matches on
the top-level type: every image subtype is accepted as the extension (with
jpeg rewritten to jpg); text accepts plain (as txt), csv and html;
application accepts pdf, json and zip; everything else yields no
extension. -/
def infer_extension_from_response (contentType : Option (String × String)) : Option String :=
  match contentType with
  | none => none
  | some (ty, sub) =>
    if ty = "image" then some (replaceJpeg sub)
    else if ty = "text" then
      if sub = "plain" then some "txt"
      else if sub = "csv" ∨ sub = "html" then some sub
      else none
    else if ty = "application" then
      if sub = "pdf" ∨ sub = "json" ∨ sub = "zip" then some sub
      else none
    else none

/-- The extension mapping exactly as the specification words it: the nine
listed pairs and nothing else (spec section 4.1).  Stated separately from
the source translation so the two can be compared. -/
def specExtensionMapping (contentType : Option (String × String)) : Option String :=
  match contentType with
  | none => none
  | some p =>
    if p = ("image", "jpeg") then some "jpg"
    else if p = ("image", "png") then some "png"
    else if p = ("image", "webp") then some "webp"
    else if p = ("text", "plain") then some "txt"
    else if p = ("text", "csv") then some "csv"
    else if p = ("text", "html") then some "html"
    else if p = ("application", "pdf") then some "pdf"
    else if p = ("application", "json") then some "json"
    else if p = ("application", "zip") then some "zip"
    else none

/-- The sites with a concrete adapter (manget/src/manga.rs lines 1-7). -/
inductive Site where
  | mangapark
  | mangadex
  | truyenqq
  | blogtruyen
  | toptruyen
  | truyentranhtuan
  | nettruyen
deriving Repr, DecidableEq

/-- Outcome of the dispatch decision in get_chapter: hand the URL to the
adapter of a site, or fail.  The adapter invocation itself (a network
round-trip) is outside the dispatch decision and not modelled. -/
inductive ChapterDispatch where
  | site (s : Site)
  | siteNotSupported (domain : String)
  | invalidUrl (url : String)
deriving Repr, DecidableEq

/-- Boolean substring test, the Rust str::contains on string patterns. -/
def strContains (s pat : String) : Bool :=
  s.data.tails.any fun t => pat.data.isPrefixOf t

/-- get_chapter dispatch (manget/src/manga.rs lines 132-159).  The argument
is url.domain() of the already parsed URL (none when the URL has no domain)
together with the URL text used in the InvalidUrl payload.  The source
matches seven exact domains, then any domain containing nettruyen, then
falls through to SiteNotSupported; a domainless URL gives InvalidUrl. -/
def get_chapter (domain : Option String) (url : String) : ChapterDispatch :=
  match domain with
  | some d =>
    if d = "mangapark.net" then ChapterDispatch.site Site.mangapark
    else if d = "mangadex.org" then ChapterDispatch.site Site.mangadex
    else if d = "truyenqq.com.vn" then ChapterDispatch.site Site.truyenqq
    else if d = "truyenqqne.com" then ChapterDispatch.site Site.truyenqq
    else if d = "blogtruyen.vn" then ChapterDispatch.site Site.blogtruyen
    else if d = "www.toptruyen.live" then ChapterDispatch.site Site.toptruyen
    else if d = "truyentuan.com" then ChapterDispatch.site Site.truyentranhtuan
    else if strContains d "nettruyen" then ChapterDispatch.site Site.nettruyen
    else ChapterDispatch.siteNotSupported d
  | none => ChapterDispatch.invalidUrl url

/-- The seven exactly matched domains of get_chapter. -/
def supported_domains : List String :=
  ["mangapark.net", "mangadex.org", "truyenqq.com.vn", "truyenqqne.com",
   "blogtruyen.vn", "www.toptruyen.live", "truyentuan.com"]

/-- ChapterError (manget/src/manga.rs lines 36-65).  The six transparent
per-site wrappers are folded into one AdapterError constructor carrying the
site and a message; the remaining constructors follow the source. -/
inductive ChapterError where
  | PathError (path : String) (source : DownloadError)
  | PagesDownloadError (sources : List DownloadError)
  | IoError (msg : String)
  | InvalidUrl (url : String)
  | AdapterError (site : Site) (msg : String)
  | SiteNotSupported (domain : String)
deriving Repr, DecidableEq

/-- Filesystem effect of download_chapter_as_cbz, in program order. -/
inductive CbzEvent where
  | createDirAll (p : String)
  | zipFolder (src dst : String)
  | removeDirAll (p : String)
deriving Repr, DecidableEq

/-- download_chapter_as_cbz (manget/src/manga.rs lines 104-123).  Effects
are oracles: tempdirResult is tempfile::tempdir() (the fresh directory path
or an io error), dl is download_chapter as a function of that directory,
createParentResult is fs::create_dir_all on the zip parent (zipParent is
zip_path.parent(), skipped when none), zipResult is zip_folder.  The io
errors convert into ChapterError::IoError through the question-mark
operator.  The returned trace lists the filesystem effects that were
reached; fs::remove_dir_all runs only after zip_folder returned Ok, and its
own result is discarded by the source (let _ = ...). -/
def download_chapter_as_cbz
    (tempdirResult : Except String String)
    (dl : String → Except ChapterError String)
    (zipParent : Option String)
    (createParentResult : Except String Unit)
    (zipResult : Except String Unit)
    (zip_path : String) :
    Except ChapterError String × List CbzEvent :=
  match tempdirResult with
  | Except.error e => (Except.error (ChapterError.IoError e), [])
  | Except.ok tmp =>
    match dl tmp with
    | Except.error e => (Except.error e, [])
    | Except.ok outdir =>
      let pre : Except ChapterError Unit × List CbzEvent :=
        match zipParent with
        | none => (Except.ok (), [])
        | some p =>
          match createParentResult with
          | Except.error e => (Except.error (ChapterError.IoError e), [CbzEvent.createDirAll p])
          | Except.ok _ => (Except.ok (), [CbzEvent.createDirAll p])
      match pre.1 with
      | Except.error e => (Except.error e, pre.2)
      | Except.ok _ =>
        match zipResult with
        | Except.error e =>
          (Except.error (ChapterError.IoError e), pre.2 ++ [CbzEvent.zipFolder outdir zip_path])
        | Except.ok _ =>
          (Except.ok zip_path,
           pre.2 ++ [CbzEvent.zipFolder outdir zip_path, CbzEvent.removeDirAll outdir])

end Manget

namespace MangaDl

/-- ChapterDownloadError (src/manga.rs lines 25-36). -/
inductive ChapterDownloadError where
  | PathError (path : String) (source : Manget.DownloadError)
  | PagesDownloadError (sources : List Manget.DownloadError)
  | IoError (msg : String)
deriving Repr, DecidableEq

/-- Observable step of one download_chapter invocation: a call of
download(&options) with the options it received, or the fixed backoff
sleep in seconds. -/
inductive ChapterEvent where
  | runDownload (opts : Manget.DownloadOptions)
  | sleepSecs (n : Nat)
deriving Repr, DecidableEq

/-- Recognizes a batch-downloader invocation in a trace. -/
def ChapterEvent.isRun : ChapterEvent → Bool
  | ChapterEvent.runDownload _ => true
  | ChapterEvent.sleepSecs _ => false

/-- The first-pass selection loop of download_chapter (src/manga.rs lines
57-66): the items of the RequestError failures, in order; every other
outcome, Ok as well as any other error kind, falls into the wildcard arm
and is dropped. -/
def failedRequestItems (results : List Manget.DlResult) : List Manget.DownloadItem :=
  results.filterMap fun r =>
    match r with
    | Except.error (Manget.DownloadError.RequestError item _) => some item
    | _ => none

/-- The error-collection loop over the retry results (src/manga.rs lines
78-83): every error of the second pass, of any kind. -/
def collectErrors (results : List Manget.DlResult) : List Manget.DownloadError :=
  results.filterMap fun r =>
    match r with
    | Except.error e => some e
    | Except.ok _ => none

/-- Boolean success test on one fetch result (Result::is_ok). -/
def resultIsOk (r : Manget.DlResult) : Bool :=
  match r with
  | Except.ok _ => true
  | Except.error _ => false

/-- download_chapter (src/manga.rs lines 38-89).  pages and limit come from
the chapter adapter (pages_download_info and server_speed_limit),
download_path is the resolved destination, setPathResult is the
fs::create_dir_all inside DownloadOptions::set_path, and exec is the batch
downloader as an oracle from the options it is handed to the per-item
results.  First pass: run download once; collect only the RequestError
items.  If none, return Ok.  Otherwise sleep five seconds, clear the item
list (clear_download_items leaves limit_speed and path untouched), add the
failed items, run download again; Ok when every retry result is Ok, else
PagesDownloadError with every error of the retry pass.  The second
component is the trace of downloader runs and sleeps. -/
def download_chapter
    (pages : List Manget.DownloadItem)
    (limit : Option Manget.DownloadSpeedLimit)
    (download_path : String)
    (setPathResult : Except Manget.DownloadError Unit)
    (exec : Manget.DownloadOptions → List Manget.DlResult) :
    Except ChapterDownloadError String × List ChapterEvent :=
  match setPathResult with
  | Except.error e => (Except.error (ChapterDownloadError.PathError download_path e), [])
  | Except.ok _ =>
    let opts : Manget.DownloadOptions :=
      { items := pages, limit_speed := limit, path := download_path }
    let results := exec opts
    let failed_items := failedRequestItems results
    if failed_items.isEmpty then
      (Except.ok download_path, [ChapterEvent.runDownload opts])
    else
      let opts2 := Manget.add_download_items (Manget.clear_download_items opts) failed_items
      let results2 := exec opts2
      if results2.all resultIsOk then
        (Except.ok download_path,
         [ChapterEvent.runDownload opts, ChapterEvent.sleepSecs 5, ChapterEvent.runDownload opts2])
      else
        (Except.error (ChapterDownloadError.PagesDownloadError (collectErrors results2)),
         [ChapterEvent.runDownload opts, ChapterEvent.sleepSecs 5, ChapterEvent.runDownload opts2])

end MangaDl

namespace Spec

/-- Modelled from the spec: the page descriptor of the current fetch unit.
The snapshot under src carries an earlier download.rs whose DownloadItem
has only a url and an optional name; the repository version the
orchestrator in manget/src/manga.rs compiles against is absent from the
snapshot (manget/src/manga.rs line 84 calls DownloadOptions::set_referer
and manget/src/manga/nettruyen.rs line 101 calls
DownloadItem::add_option_url, neither of which exists in the snapshot
download.rs).  Spec section 3: primary URL, ordered fallback URLs,
optional explicit file name. -/
structure PageDescriptor where
  primaryUrl : String
  fallbackUrls : List String
  name : Option String
deriving Repr, DecidableEq

/-- Outcome of requesting one URL: a 2xx response persisted at a path, or a
failure (non-2xx status, network error, timeout) described by a message. -/
inductive UrlAttempt where
  | success (path : String)
  | failure (err : String)
deriving Repr, DecidableEq

/-- Boolean success test on one URL attempt. -/
def UrlAttempt.isSuccess : UrlAttempt → Bool
  | UrlAttempt.success _ => true
  | UrlAttempt.failure _ => false

/-- Modelled from the spec: the URL loop of the fetch unit (spec section
4.1), over the environment env giving each URL its outcome.  Try the
current URL; on success stop with its path; on failure move to the next
URL, or, when none is left, return the error just observed (which is then
the last observed error). -/
def fetchGo (env : String → UrlAttempt) (u : String) : List String → Except String String
  | [] =>
    match env u with
    | UrlAttempt.success p => Except.ok p
    | UrlAttempt.failure e => Except.error e
  | v :: vs =>
    match env u with
    | UrlAttempt.success p => Except.ok p
    | UrlAttempt.failure _ => fetchGo env v vs

/-- Modelled from the spec: fetch of one page descriptor (spec section
4.1): the primary URL first, then each fallback URL in order. -/
def fetch (env : String → UrlAttempt) (d : PageDescriptor) : Except String String :=
  fetchGo env d.primaryUrl d.fallbackUrls

end Spec

namespace Wit

/-- Concrete page item used in witnesses. -/
def itemA : Manget.DownloadItem :=
  { url := "https://example.com/a.jpg", name := none }

/-- Concrete page item used in witnesses. -/
def itemB : Manget.DownloadItem :=
  { url := "https://example.com/b.jpg", name := some "page_01.jpg" }

/-- Five concrete items, for the rate-limit witness. -/
def items5 : List Manget.DownloadItem :=
  [{ url := "https://e.com/1", name := none }, { url := "https://e.com/2", name := none },
   { url := "https://e.com/3", name := none }, { url := "https://e.com/4", name := none },
   { url := "https://e.com/5", name := none }]

/-- Fetch oracle that succeeds on every item, answering with its URL as the
written path. -/
def fetch0 : Manget.DownloadItem → Manget.DlResult :=
  fun it => Except.ok it.url

/-- Batch-downloader oracle that fails every run with one network-class
RequestError on itemB. -/
def execFail : Manget.DownloadOptions → List Manget.DlResult :=
  fun _ => [Except.error (Manget.DownloadError.RequestError itemB "connection reset")]

/-- URL environment in which every request fails, with the URL itself as
the error text, so the last observed error is recognizable. -/
def env0 : String → Spec.UrlAttempt :=
  fun u => Spec.UrlAttempt.failure u

/-- Concrete descriptor with two fallback URLs. -/
def d0 : Spec.PageDescriptor :=
  { primaryUrl := "u1", fallbackUrls := ["u2", "u3"], name := none }

end Wit

namespace Manget

theorem chunksOfAux_flatten {α : Type} (n : Nat) :
    ∀ (fuel : Nat) (xs : List α), xs.length ≤ fuel →
      (chunksOfAux n fuel xs).flatten = xs := by
  intro fuel
  induction fuel with
  | zero =>
    intro xs h
    cases xs with
    | nil => simp [chunksOfAux]
    | cons x xs => simp at h
  | succ fuel ih =>
    intro xs h
    cases xs with
    | nil => simp [chunksOfAux]
    | cons x xs =>
      have hlen : (xs.drop n).length ≤ fuel := by
        simp only [List.length_drop]
        simp at h
        omega
      simp only [chunksOfAux, List.flatten_cons, ih _ hlen]
      simp [List.take_append_drop]

theorem chunksOf_flatten {α : Type} (n : Nat) (xs : List α) :
    (chunksOf n xs).flatten = xs :=
  chunksOfAux_flatten n xs.length xs le_rfl

theorem chunksOfAux_mem {α : Type} (n : Nat) :
    ∀ (fuel : Nat) (xs : List α) (c : List α), c ∈ chunksOfAux n fuel xs →
      c ≠ [] ∧ c.length ≤ n + 1 := by
  intro fuel
  induction fuel with
  | zero =>
    intro xs c hc
    cases xs with
    | nil => simp [chunksOfAux] at hc
    | cons x xs => simp [chunksOfAux] at hc
  | succ fuel ih =>
    intro xs c hc
    cases xs with
    | nil => simp [chunksOfAux] at hc
    | cons x xs =>
      simp only [chunksOfAux, List.mem_cons] at hc
      rcases hc with hc | hc
      · subst hc
        refine ⟨by simp, ?_⟩
        simp only [List.length_cons, List.length_take]
        omega
      · exact ih _ _ hc

theorem chunksOfAux_ne_nil_of_arg {α : Type} (n fuel : Nat) (xs : List α)
    (h : chunksOfAux n fuel xs = []) (hf : xs.length ≤ fuel) : xs = [] := by
  have := chunksOfAux_flatten n fuel xs hf
  rw [h] at this
  simpa using this.symm

theorem chunksOfAux_getD {α : Type} (n : Nat) :
    ∀ (fuel : Nat) (xs : List α) (i : Nat), xs.length ≤ fuel →
      i + 1 < (chunksOfAux n fuel xs).length →
      ((chunksOfAux n fuel xs).getD i []).length = n + 1 := by
  intro fuel
  induction fuel with
  | zero =>
    intro xs i h hi
    cases xs with
    | nil => simp [chunksOfAux] at hi
    | cons x xs => simp at h
  | succ fuel ih =>
    intro xs i h hi
    cases xs with
    | nil => simp [chunksOfAux] at hi
    | cons x xs =>
      have hxs : xs.length ≤ fuel := by simp at h; omega
      have hlen : (xs.drop n).length ≤ fuel := by
        simp only [List.length_drop]; omega
      cases i with
      | zero =>
        simp only [chunksOfAux, List.getD_cons_zero]
        simp only [chunksOfAux, List.length_cons] at hi
        have htail : chunksOfAux n fuel (xs.drop n) ≠ [] := by
          intro hnil
          rw [hnil] at hi
          simp at hi
        have hdrop : xs.drop n ≠ [] := by
          intro hnil
          exact htail (by rw [hnil]; cases fuel <;> simp [chunksOfAux])
        have hnx : n < xs.length := by
          by_contra hle
          exact hdrop (List.drop_eq_nil_of_le (by omega))
        simp only [List.length_cons, List.length_take]
        omega
      | succ i =>
        simp only [chunksOfAux, List.getD_cons_succ]
        simp only [chunksOfAux, List.length_cons] at hi
        exact ih (xs.drop n) i hlen (by omega)

theorem chunksOf_mem {α : Type} (n : Nat) (xs : List α) (c : List α)
    (hc : c ∈ chunksOf n xs) : c ≠ [] ∧ c.length ≤ n + 1 :=
  chunksOfAux_mem n xs.length xs c hc

theorem chunksOf_getD {α : Type} (n : Nat) (xs : List α) (i : Nat)
    (hi : i + 1 < (chunksOf n xs).length) :
    ((chunksOf n xs).getD i []).length = n + 1 :=
  chunksOfAux_getD n xs.length xs i le_rfl hi

theorem downloadGo_fst (fetch : DownloadItem → DlResult) (d : Nat) :
    ∀ cs : List (List DownloadItem),
      (downloadGo fetch d cs).1 = (cs.map fun c => download_chunk c fetch).flatten := by
  intro cs
  induction cs with
  | nil => rfl
  | cons c rest ih =>
    cases rest with
    | nil => simp [downloadGo]
    | cons c2 rest2 =>
      have step : downloadGo fetch d (c :: c2 :: rest2) =
          (download_chunk c fetch ++ (downloadGo fetch d (c2 :: rest2)).1,
           DlEvent.runChunk c :: DlEvent.sleep d :: (downloadGo fetch d (c2 :: rest2)).2) := rfl
      rw [step]
      simp only [List.map_cons, List.flatten_cons, ih]

theorem downloadGo_snd (fetch : DownloadItem → DlResult) (d : Nat) :
    ∀ cs : List (List DownloadItem),
      (downloadGo fetch d cs).2 = List.intersperse (DlEvent.sleep d) (cs.map DlEvent.runChunk) := by
  intro cs
  induction cs with
  | nil => rfl
  | cons c rest ih =>
    cases rest with
    | nil => simp [downloadGo]
    | cons c2 rest2 =>
      have step : downloadGo fetch d (c :: c2 :: rest2) =
          (download_chunk c fetch ++ (downloadGo fetch d (c2 :: rest2)).1,
           DlEvent.runChunk c :: DlEvent.sleep d :: (downloadGo fetch d (c2 :: rest2)).2) := rfl
      rw [step]
      simp only [List.map_cons, List.intersperse_cons_cons, ih]

/-- C4, counterexample: with a rate limit whose per-window item count is 0,
download yields no outcome list at all (slice::chunks panics before any
fetch starts), rather than one outcome for the single input descriptor. -/
theorem c4_zero_limit_counterexample :
    download { items := [Wit.itemA], limit_speed := some ⟨0, 1000⟩, path := "." } Wit.fetch0 =
      none := rfl

/-- C4, amended: whenever the rate limit, if present, has a positive
per-window item count, the batch download returns exactly the pointwise
image of the input list under the fetch oracle: one outcome per input
descriptor, in the same order as the input list. -/
theorem c4_one_outcome_per_item (items : List DownloadItem)
    (limit : Option DownloadSpeedLimit) (path : String)
    (fetch : DownloadItem → DlResult)
    (hlim : ∀ lim ∈ limit, lim.num_items ≠ 0) :
    (download { items := items, limit_speed := limit, path := path } fetch).map Prod.fst =
      some (items.map fetch) := by
  cases limit with
  | none => simp [download, download_chunk]
  | some lim =>
    have h0 : lim.num_items ≠ 0 := hlim lim rfl
    rcases hn : lim.num_items with _ | n
    · exact absurd hn h0
    · obtain ⟨k, dur⟩ := lim
      simp only at hn
      subst hn
      have step :
          download { items := items, limit_speed := some ⟨n + 1, dur⟩, path := path } fetch =
            some (downloadGo fetch dur (chunksOf n items)) := rfl
      rw [step, Option.map_some', downloadGo_fst]
      have heta : ((chunksOf n items).map fun c => download_chunk c fetch) =
          (chunksOf n items).map (List.map fetch) := rfl
      rw [heta, ← List.map_flatten, chunksOf_flatten]

/-- C4 witness: the amended theorem at a concrete run of two items under a
limit of two per 1000 ms window. -/
theorem c4_one_outcome_per_item_witness :
    (download { items := [Wit.itemA, Wit.itemB], limit_speed := some ⟨2, 1000⟩, path := "." }
        Wit.fetch0).map Prod.fst = some ([Wit.itemA, Wit.itemB].map Wit.fetch0) :=
  c4_one_outcome_per_item [Wit.itemA, Wit.itemB] (some ⟨2, 1000⟩) "." Wit.fetch0
    (by intro lim hl; rw [Option.mem_def] at hl; injection hl with h; rw [← h]; decide)

/-- C5: with a rate limit of n+1 items per window of duration d, the
scheduling trace of download is exactly the chunk runs separated by one
sleep of d each, with no sleep after the final chunk; the chunks
concatenate back to the input in order (consecutive partition), every chunk
is nonempty with at most n+1 items, and every chunk except possibly the
last has exactly n+1 items.  Each runChunk event is one join_all wave: all
fetches of the chunk run concurrently and the loop awaits the whole wave
before the next event. -/
theorem c5_rate_limit_schedule (items : List DownloadItem) (n d : Nat) (path : String)
    (fetch : DownloadItem → DlResult) :
    (download { items := items, limit_speed := some ⟨n + 1, d⟩, path := path } fetch).map
        Prod.snd =
      some (List.intersperse (DlEvent.sleep d) ((chunksOf n items).map DlEvent.runChunk))
    ∧ (chunksOf n items).flatten = items
    ∧ (∀ c ∈ chunksOf n items, c ≠ [] ∧ c.length ≤ n + 1)
    ∧ (∀ i : Nat, i + 1 < (chunksOf n items).length →
        ((chunksOf n items).getD i []).length = n + 1) := by
  refine ⟨?_, chunksOf_flatten n items, fun c hc => chunksOf_mem n items c hc,
    fun i hi => chunksOf_getD n items i hi⟩
  have step :
      download { items := items, limit_speed := some ⟨n + 1, d⟩, path := path } fetch =
        some (downloadGo fetch d (chunksOf n items)) := rfl
  rw [step, Option.map_some', downloadGo_snd]

/-- C5 witness: five items under a limit of two per window of 7: three
chunks of sizes 2, 2, 1, two interleaved sleeps, no trailing sleep, and the
first chunk has exactly two items. -/
theorem c5_rate_limit_schedule_witness :
    (download { items := Wit.items5, limit_speed := some ⟨2, 7⟩, path := "." } Wit.fetch0).map
        Prod.snd =
      some (List.intersperse (DlEvent.sleep 7) ((chunksOf 1 Wit.items5).map DlEvent.runChunk))
    ∧ ((chunksOf 1 Wit.items5).getD 0 []).length = 2 := by
  constructor
  · exact (c5_rate_limit_schedule Wit.items5 1 7 "." Wit.fetch0).1
  · exact (c5_rate_limit_schedule Wit.items5 1 7 "." Wit.fetch0).2.2.2 0 (by decide)

/-- C10: a configured rate limit of 0 items per window makes download yield
none, the model of the slice::chunks panic, for every item list (non-empty
ones in particular), fetch oracle, window duration and path: no error value
is returned and the limit is not treated as absent. -/
theorem c10_zero_chunk_panics (items : List DownloadItem) (d : Nat) (path : String)
    (fetch : DownloadItem → DlResult) :
    download { items := items, limit_speed := some ⟨0, d⟩, path := path } fetch = none := rfl

end Manget

namespace MangaDl

/-- C1, evaluation at the failing input: when the single page of the first
pass fails with an IoError (say File::create on a full disk) and no
RequestError occurs, download_chapter returns Ok with the download path,
although that page never succeeded.  The wildcard arm of the selection loop
(src/manga.rs line 64) drops every failure that is not a RequestError
instead of reporting it, so the claim (and spec sections 4.4 and 7) is
violated by the source; the later orchestrator version
(manget/src/manga.rs lines 87-102) collects every failure, marking the
drop as a slip.  The second conjunct records the true half of the claim:
exactly the RequestError failures are selected as the retry set. -/
theorem c1_nonretryable_failure_yields_ok :
    (download_chapter [Wit.itemA] none "out" (Except.ok ())
        (fun _ => [Except.error (Manget.DownloadError.IoError "disk full")])).1 =
      Except.ok "out"
    ∧ failedRequestItems
        [Except.ok "p",
         Except.error (Manget.DownloadError.RequestError Wit.itemB "timeout"),
         Except.error (Manget.DownloadError.InvalidUrl "u"),
         Except.error (Manget.DownloadError.IoError "io")] = [Wit.itemB] :=
  ⟨rfl, rfl⟩

/-- C3, counterexample: a first pass under a rate limit of 2 per 1000 ms
whose only page fails with a RequestError.  The retry run receives options
whose limit_speed is still some (2 per 1000 ms), not none:
clear_download_items resets only the item list, so the retry pass is
executed under the same rate-limit cap, contrary to the claim that the
retry runs without one. -/
theorem c3_retry_keeps_rate_limit_counterexample :
    (download_chapter [Wit.itemB] (some ⟨2, 1000⟩) "out" (Except.ok ()) Wit.execFail).2 =
      [ChapterEvent.runDownload
         { items := [Wit.itemB], limit_speed := some ⟨2, 1000⟩, path := "out" },
       ChapterEvent.sleepSecs 5,
       ChapterEvent.runDownload
         { items := [Wit.itemB], limit_speed := some ⟨2, 1000⟩, path := "out" }]
    ∧ (some (⟨2, 1000⟩ : Manget.DownloadSpeedLimit) ≠ (none : Option Manget.DownloadSpeedLimit)) :=
  ⟨rfl, by simp⟩

/-- C3, amended: when the first pass leaves RequestError failures,
download_chapter sleeps five seconds and re-runs the batch downloader over
exactly the failed descriptors, under the same rate-limit setting as the
first pass (not without one: clear_download_items clears only the item
list). -/
theorem c3_retry_schedule (pages : List Manget.DownloadItem)
    (limit : Option Manget.DownloadSpeedLimit) (path : String)
    (exec : Manget.DownloadOptions → List Manget.DlResult)
    (h : failedRequestItems (exec { items := pages, limit_speed := limit, path := path }) ≠ []) :
    (download_chapter pages limit path (Except.ok ()) exec).2 =
      [ChapterEvent.runDownload { items := pages, limit_speed := limit, path := path },
       ChapterEvent.sleepSecs 5,
       ChapterEvent.runDownload
         { items :=
            failedRequestItems (exec { items := pages, limit_speed := limit, path := path }),
           limit_speed := limit, path := path }] := by
  have hne : (failedRequestItems
      (exec { items := pages, limit_speed := limit, path := path })).isEmpty = false := by
    cases hh : failedRequestItems (exec { items := pages, limit_speed := limit, path := path }) with
    | nil => exact absurd hh h
    | cons a l => rfl
  unfold download_chapter
  simp only [hne, Bool.false_eq_true, if_false, Manget.add_download_items,
    Manget.clear_download_items, List.nil_append]
  split <;> rfl

/-- C3 witness: the amended schedule at the concrete failing run of the
counterexample. -/
theorem c3_retry_schedule_witness :
    (download_chapter [Wit.itemB] (some ⟨2, 1000⟩) "out" (Except.ok ()) Wit.execFail).2 =
      [ChapterEvent.runDownload
         { items := [Wit.itemB], limit_speed := some ⟨2, 1000⟩, path := "out" },
       ChapterEvent.sleepSecs 5,
       ChapterEvent.runDownload
         { items :=
            failedRequestItems
              (Wit.execFail { items := [Wit.itemB], limit_speed := some ⟨2, 1000⟩, path := "out" }),
           limit_speed := some ⟨2, 1000⟩, path := "out" }] :=
  c3_retry_schedule [Wit.itemB] (some ⟨2, 1000⟩) "out" Wit.execFail
    (List.cons_ne_nil Wit.itemB [])

/-- C9: whatever the oracles answer, the trace of one download_chapter
invocation contains at most two batch-downloader runs: the first pass and
at most one retry pass. -/
theorem c9_at_most_two_passes (pages : List Manget.DownloadItem)
    (limit : Option Manget.DownloadSpeedLimit) (path : String)
    (setPathResult : Except Manget.DownloadError Unit)
    (exec : Manget.DownloadOptions → List Manget.DlResult) :
    ((download_chapter pages limit path setPathResult exec).2.filter
        ChapterEvent.isRun).length ≤ 2 := by
  unfold download_chapter
  cases setPathResult with
  | error e => simp
  | ok _ =>
    dsimp only
    split
    · simp [ChapterEvent.isRun]
    · split <;> simp [ChapterEvent.isRun]

end MangaDl

namespace Spec

theorem fetchGo_primary_success (env : String → UrlAttempt) (u : String) (rest : List String)
    (p : String) (h : env u = UrlAttempt.success p) :
    fetchGo env u rest = Except.ok p := by
  cases rest <;> simp [fetchGo, h]

theorem fetchGo_all_fail (env : String → UrlAttempt) :
    ∀ (rest : List String) (u : String) (e ul : String),
      (∀ v ∈ u :: rest, (env v).isSuccess = false) →
      (u :: rest).getLast? = some ul → env ul = UrlAttempt.failure e →
      fetchGo env u rest = Except.error e := by
  intro rest
  induction rest with
  | nil =>
    intro u e ul hall hlast henv
    have hul : ul = u := by simpa using hlast.symm
    subst hul
    cases hfail : env ul with
    | success p =>
      have := hall ul (List.mem_cons_self ul [])
      rw [hfail] at this
      simp [UrlAttempt.isSuccess] at this
    | failure e' =>
      rw [hfail] at henv
      injection henv with he
      subst he
      simp [fetchGo, hfail]
  | cons v vs ih =>
    intro u e ul hall hlast henv
    have hu : (env u).isSuccess = false := hall u (List.mem_cons_self u (v :: vs))
    cases hfail : env u with
    | success p => rw [hfail] at hu; simp [UrlAttempt.isSuccess] at hu
    | failure e' =>
      have step : fetchGo env u (v :: vs) = fetchGo env v vs := by simp [fetchGo, hfail]
      rw [step]
      refine ih v e ul (fun w hw => hall w (List.mem_cons_of_mem u hw)) ?_ henv
      rw [← hlast, List.getLast?_cons_cons]

theorem fetchGo_first_success (env : String → UrlAttempt) :
    ∀ (rest : List String) (u : String) (pre : List String) (w : String) (suf : List String)
      (p : String),
      u :: rest = pre ++ w :: suf →
      (∀ v ∈ pre, (env v).isSuccess = false) →
      env w = UrlAttempt.success p →
      fetchGo env u rest = Except.ok p := by
  intro rest
  induction rest with
  | nil =>
    intro u pre w suf p hsplit hpre henv
    cases pre with
    | nil =>
      simp only [List.nil_append, List.cons.injEq] at hsplit
      obtain ⟨h1, _⟩ := hsplit
      subst h1
      exact fetchGo_primary_success env u [] p henv
    | cons a l =>
      simp only [List.cons_append, List.cons.injEq] at hsplit
      exact absurd hsplit.2 (by simp)
  | cons v vs ih =>
    intro u pre w suf p hsplit hpre henv
    cases pre with
    | nil =>
      simp only [List.nil_append, List.cons.injEq] at hsplit
      obtain ⟨h1, _⟩ := hsplit
      subst h1
      exact fetchGo_primary_success env u (v :: vs) p henv
    | cons a l =>
      simp only [List.cons_append, List.cons.injEq] at hsplit
      obtain ⟨h1, h2⟩ := hsplit
      subst h1
      have hu : (env u).isSuccess = false := hpre u (List.mem_cons_self u l)
      cases hfail : env u with
      | success q => rw [hfail] at hu; simp [UrlAttempt.isSuccess] at hu
      | failure e' =>
        have step : fetchGo env u (v :: vs) = fetchGo env v vs := by simp [fetchGo, hfail]
        rw [step]
        exact ih v l w suf p h2 (fun x hx => hpre x (List.mem_cons_of_mem u hx)) henv

/-- C2: the fetch unit tries the primary URL first and, on failure, the
fallback URLs in order: (1) a successful primary short-circuits with its
path; (2) when the URL list splits as pre ++ w :: suf with every URL of
pre failing and w succeeding with path p, the result is Ok p, the path of
the first URL with a 2xx response; (3) when every URL fails, the result is
the error observed at the last URL of the list.  Stated over the fetch
unit modelled from the spec, because the fetch-unit source the current
orchestrator uses (descriptors with fallback URLs, see the doc comment on
PageDescriptor) is absent from the snapshot. -/
theorem c2_fetch_fallback_order (env : String → UrlAttempt) (d : PageDescriptor) :
    (∀ p, env d.primaryUrl = UrlAttempt.success p → fetch env d = Except.ok p)
    ∧ (∀ pre w suf p, d.primaryUrl :: d.fallbackUrls = pre ++ w :: suf →
        (∀ v ∈ pre, (env v).isSuccess = false) → env w = UrlAttempt.success p →
        fetch env d = Except.ok p)
    ∧ (∀ e ul, (∀ u ∈ d.primaryUrl :: d.fallbackUrls, (env u).isSuccess = false) →
        (d.primaryUrl :: d.fallbackUrls).getLast? = some ul →
        env ul = UrlAttempt.failure e →
        fetch env d = Except.error e) :=
  ⟨fun p hp => fetchGo_primary_success env d.primaryUrl d.fallbackUrls p hp,
   fun pre w suf p hs hpre henv =>
     fetchGo_first_success env d.fallbackUrls d.primaryUrl pre w suf p hs hpre henv,
   fun e ul hall hlast henv =>
     fetchGo_all_fail env d.fallbackUrls d.primaryUrl e ul hall hlast henv⟩

/-- C2 witness: on a descriptor with primary u1 and fallbacks u2, u3 in an
environment failing every URL with the URL text as the error, fetch
returns the error of u3, the last URL tried. -/
theorem c2_fetch_fallback_order_witness :
    fetch Wit.env0 Wit.d0 = Except.error "u3" :=
  (c2_fetch_fallback_order Wit.env0 Wit.d0).2.2 "u3" "u3"
    (fun _ _ => rfl) rfl rfl

end Spec

namespace Manget

/-- C6, counterexample: the content type image/gif is outside the nine-pair
mapping of the claim, yet the source appends the extension gif: the image
arm of infer_extension_from_response accepts every image subtype, not only
jpeg, png and webp. -/
theorem c6_gif_counterexample :
    infer_extension_from_response (some ("image", "gif")) = some "gif"
    ∧ specExtensionMapping (some ("image", "gif")) = none := by
  constructor <;> decide

/-- C6, amended: the inferred extension agrees with the fixed spec mapping
for every non-image content type (and for no header the result is none),
but for an image content type the extension is always the subtype with
jpeg rewritten to jpg: jpg, png and webp as the claim lists, and equally
every other image subtype, such as gif. -/
theorem c6_extension_mapping (ty sub : String) :
    infer_extension_from_response (some (ty, sub)) =
      if ty = "image" then some (replaceJpeg sub)
      else specExtensionMapping (some (ty, sub)) := by
  simp only [infer_extension_from_response, specExtensionMapping]
  by_cases h1 : ty = "image" <;>
    by_cases h2 : ty = "text" <;>
      by_cases h3 : ty = "application" <;>
        by_cases s1 : sub = "plain" <;>
          by_cases s2 : sub = "csv" <;>
            by_cases s3 : sub = "html" <;>
              by_cases s4 : sub = "pdf" <;>
                by_cases s5 : sub = "json" <;>
                  by_cases s6 : sub = "zip" <;>
                    simp_all [Prod.ext_iff]

/-- C7: a parsed URL whose domain is none of the seven exactly matched
domains and does not contain the substring nettruyen dispatches to
SiteNotSupported carrying that domain, and a URL without a domain gives
InvalidUrl carrying the URL text; the dispatch is a total function, so it
never panics. -/
theorem c7_unsupported_domain (d url : String)
    (h1 : d ∉ supported_domains) (h2 : strContains d "nettruyen" = false) :
    get_chapter (some d) url = ChapterDispatch.siteNotSupported d
    ∧ get_chapter none url = ChapterDispatch.invalidUrl url := by
  refine ⟨?_, rfl⟩
  simp only [supported_domains, List.mem_cons, List.mem_singleton, not_or] at h1
  obtain ⟨n1, n2, n3, n4, n5, n6, n7⟩ := h1
  simp [get_chapter, n1, n2, n3, n4, n5, n6, n7, h2]

/-- C7 witness: the spec example unknown-site.example. -/
theorem c7_unsupported_domain_witness :
    get_chapter (some "unknown-site.example") "https://unknown-site.example/x" =
      ChapterDispatch.siteNotSupported "unknown-site.example"
    ∧ get_chapter none "https://unknown-site.example/x" =
      ChapterDispatch.invalidUrl "https://unknown-site.example/x" :=
  c7_unsupported_domain "unknown-site.example" "https://unknown-site.example/x"
    (by decide) (by decide)

/-- C8: if zip_folder fails, download_chapter_as_cbz returns that error as
its overall result and its effect trace never contains the removal of the
loose directory, which is left intact; when zip_folder succeeds, the trace
removes the loose directory immediately after writing the archive, and
only then. -/
theorem c8_zip_failure_keeps_directory (outdir zip_path e : String)
    (zipParent : Option String) :
    ((download_chapter_as_cbz (Except.ok "tmp") (fun _ => Except.ok outdir) zipParent
        (Except.ok ()) (Except.error e) zip_path).1 =
          Except.error (ChapterError.IoError e)
      ∧ CbzEvent.removeDirAll outdir ∉
          (download_chapter_as_cbz (Except.ok "tmp") (fun _ => Except.ok outdir) zipParent
            (Except.ok ()) (Except.error e) zip_path).2)
    ∧ (download_chapter_as_cbz (Except.ok "tmp") (fun _ => Except.ok outdir) zipParent
        (Except.ok ()) (Except.ok ()) zip_path).2 =
      (match zipParent with
       | none => []
       | some p => [CbzEvent.createDirAll p]) ++
        [CbzEvent.zipFolder outdir zip_path, CbzEvent.removeDirAll outdir] := by
  cases zipParent <;> simp [download_chapter_as_cbz]

end Manget
